import Mathlib

/-!
Shallow embedding of the YagaLog leveled logger (`src/logger.go`).

The Go `Logger` is a mutable struct; methods with a pointer receiver are
embedded as pure functions by explicit state passing: a method that in Go
could assign to a field returns a new `Logger` alongside its other results.
I/O effects (console write, file write, caller resolution, timestamp
computation, process exit) are reified in a `LogResult` record so that
claims about "no bytes written" and "no side effects" become equalities on
that record.  The operating-system environment (the wall clock, the result
of `runtime.Caller`, the outcome of `os.OpenFile` / `File.Close`) is passed
in as explicit parameters, since the Go code consults it but does not
control it.  Strings here are ASCII in every constant the code uses, so Go
byte indexing coincides with character indexing.
-/

namespace Yagalog

/-- Go `type LogLevel int`; the five severities are `iota` constants 0..4. -/
abbrev LogLevel := Int

def DEBUG : LogLevel := 0
def INFO : LogLevel := 1
def WARNING : LogLevel := 2
def ERROR : LogLevel := 3
def FATAL : LogLevel := 4

/-- An `*os.File` handle.  `id` identifies the underlying open file
description (which path / `os.OpenFile` call it came from); `isOpen`
records whether `Close` has been called on it, the state Go keeps inside
the `os.File` object itself. -/
structure FileHandle where
  id : Nat
  isOpen : Bool
deriving DecidableEq

/-- The fields of Go's `Logger` struct that carry state.  The five
`log.Logger` console writers are fixed at construction (their prefixes are
the bracketed severity tags) and are represented by `consoleTag` below; the
mutex serializes access and has no sequential content. -/
structure Logger where
  logFile : Option FileHandle
  level : LogLevel
  timeFormat : String
  withCaller : Bool
  jsonMode : Bool
deriving DecidableEq

/-- Inputs the logger reads from the runtime environment during one
emission call: `clock` is `time.Now().Format` (a function of the layout
string), `consoleClock` is the `log.Ltime` header the console `log.Logger`s
render on their own, and `callerInfo` is the `(file, line)` result of
`runtime.Caller(2)` (`none` when `ok` is false). -/
structure Env where
  clock : String → String
  consoleClock : String
  callerInfo : Option (String × Nat)

/-- The observable effects of one `log` call.  `console` is the line the
per-severity console writer printed (`none` when nothing was printed);
`fileWrite` is the record handed to the file sink together with the handle
it was written through (a write through a closed handle fails inside the
OS and delivers no bytes — see `delivered`); `resolvedCaller` and
`computedTime` record whether `runtime.Caller` / `time.Now` were invoked. -/
structure LogResult where
  console : Option String := none
  fileWrite : Option (FileHandle × String) := none
  resolvedCaller : Bool := false
  computedTime : Bool := false
deriving DecidableEq

/-- Errors surfaced by construction and sink-control methods. -/
inductive IOErr where
  | openFail
  | closeFail
  | errClosed
deriving DecidableEq

/-- The bytes that actually reach the file: Go's `File.Write` on a closed
handle returns an error (which `log` discards) and writes nothing. -/
def delivered (r : LogResult) : Option String :=
  match r.fileWrite with
  | some (h, d) => if h.isOpen then some d else none
  | none => none

/-- The console writers built in `NewLogger`: `log.New(os.Stdout,
color.XString("[TAG] "), log.Ltime)` for the five severities, mirrored by
the `switch level` in `log`.  A level outside the five cases hits no
`case` and prints nothing.  The ANSI color codes the `color` package wraps
around the tag depend on the process-global color flag and carry no
content; they are elided here. -/
def consoleTag (lvl : LogLevel) : Option String :=
  if lvl = DEBUG then some "[DEBUG] "
  else if lvl = INFO then some "[INFO] "
  else if lvl = WARNING then some "[WARNING] "
  else if lvl = ERROR then some "[ERROR] "
  else if lvl = FATAL then some "[FATAL] "
  else none

/-- The `levelStr` computed by the second `switch level` in `log`
(initialized to the empty string, assigned only in the five cases). -/
def levelStr (lvl : LogLevel) : String :=
  if lvl = DEBUG then "[DEBUG] "
  else if lvl = INFO then "[INFO] "
  else if lvl = WARNING then "[WARNING] "
  else if lvl = ERROR then "[ERROR] "
  else if lvl = FATAL then "[FATAL] "
  else ""

/-- Go slice expression `s[1 : len(s)-2]` on an ASCII string: drop the
first byte, keep `len(s)-3` bytes.  Used for the `// remove brackets and
space` line in `log`. -/
def levelSlice (s : String) : String := (s.drop 1).take (s.length - 3)

/-- Split a character list at `/` separators. -/
def splitSlash : List Char → List (List Char)
  | [] => [[]]
  | c :: rest =>
      let r := splitSlash rest
      if c = '/' then [] :: r
      else
        match r with
        | [] => [[c]]
        | h :: t => (c :: h) :: t

/-- `filepath.Base` for slash-separated paths: the last non-empty path
element; `"."` for the empty path, `"/"` for all-slashes. -/
def filepathBase (s : String) : String :=
  match (splitSlash s.toList).reverse.find? (fun p => p ≠ []) with
  | some p => String.mk p
  | none => if s = "" then "." else "/"

/-- The `caller` string of `log`: empty unless `withCaller` is set and
`runtime.Caller(2)` succeeded, in which case it is
`fmt.Sprintf("%s:%d", filepath.Base(file), line)`. -/
def callerOf (l : Logger) (env : Env) : String :=
  if l.withCaller then
    match env.callerInfo with
    | some (f, ln) => filepathBase f ++ ":" ++ Nat.repr ln
    | none => ""
  else ""

/-- One hexadecimal digit, lowercase, as `encoding/json` renders it. -/
def hexDigit (n : Nat) : Char :=
  if n < 10 then Char.ofNat (48 + n) else Char.ofNat (87 + n)

/-- Per-character escaping of `encoding/json` string encoding with
`SetEscapeHTML(false)`: quote and backslash escaped, the three named
control characters use their short forms, other control characters use
`\u00XX`, U+2028/U+2029 are always escaped, everything else — including
`<`, `>`, `&` — is emitted verbatim. -/
def jsonEscapeChar (c : Char) : String :=
  if c = Char.ofNat 34 then "\\\""
  else if c = Char.ofNat 92 then "\\\\"
  else if c = Char.ofNat 10 then "\\n"
  else if c = Char.ofNat 13 then "\\r"
  else if c = Char.ofNat 9 then "\\t"
  else if c.toNat < 32 then
    "\\u00" ++ String.singleton (hexDigit (c.toNat / 16)) ++ String.singleton (hexDigit (c.toNat % 16))
  else if c.toNat = 8232 ∨ c.toNat = 8233 then
    "\\u202" ++ String.singleton (hexDigit (c.toNat % 16))
  else String.singleton c

/-- Concatenation of the escapes of each character, in order. -/
def escapeAll : List Char → String
  | [] => ""
  | c :: rest => jsonEscapeChar c ++ escapeAll rest

/-- A JSON string literal under `SetEscapeHTML(false)`. -/
def jsonQuote (s : String) : String :=
  "\"" ++ escapeAll s.toList ++ "\""

/-- The line `json.Encoder.Encode` writes for the flat `map[string]any`
built in `log`: `encoding/json` marshals map keys in sorted order
(`caller` < `level` < `msg` < `time`), and `Encode` appends one newline. -/
def jsonRecord (timeV levelV msgV : String) (callerV : Option String) : String :=
  match callerV with
  | some c =>
      "\x7b\"caller\":" ++ jsonQuote c ++ ",\"level\":" ++ jsonQuote levelV ++
        ",\"msg\":" ++ jsonQuote msgV ++ ",\"time\":" ++ jsonQuote timeV ++ "\x7d\n"
  | none =>
      "\x7b\"level\":" ++ jsonQuote levelV ++ ",\"msg\":" ++ jsonQuote msgV ++
        ",\"time\":" ++ jsonQuote timeV ++ "\x7d\n"

/-- The unexported `log` method, line by line: level guard; console write
through the per-severity writer (`Println` renders prefix, `log.Ltime`
header, message, one newline); early return when `logFile` is nil;
`levelStr`; caller resolution; timestamp; then under the mutex either the
JSON record via the encoder or the plain-text line via `fmt.Fprintln`
(which appends one newline); write errors are discarded.  No field of the
receiver is assigned, so the state comes back unchanged. -/
def log (l : Logger) (env : Env) (lvl : LogLevel) (msg : String) : Logger × LogResult :=
  if lvl < l.level then (l, {}) else
  let console := (consoleTag lvl).map (fun tag => tag ++ env.consoleClock ++ " " ++ msg ++ "\n")
  match l.logFile with
  | none => (l, { console := console })
  | some fh =>
    let lstr := levelStr lvl
    let caller := callerOf l env
    let nowStr := env.clock l.timeFormat
    if l.jsonMode then
      (l, { console := console
            fileWrite := some (fh, jsonRecord nowStr (levelSlice lstr) msg
              (if caller = "" then none else some caller))
            resolvedCaller := l.withCaller
            computedTime := true })
    else
      let line := nowStr ++ " " ++ lstr ++ msg
      let line2 := if caller = "" then line else line ++ " (" ++ caller ++ ")"
      (l, { console := console
            fileWrite := some (fh, line2 ++ "\n")
            resolvedCaller := l.withCaller
            computedTime := true })

/-- A value passed through Go's `...interface\x7b\x7d` variadic parameter;
string and integer arguments cover the verbs the repository's examples
use. -/
inductive GoVal where
  | str (s : String)
  | int (n : Int)
deriving DecidableEq

/-- `fmt` rendering of one value under one verb character: `%d`, `%s`,
`%v`, with Go's `%!verb(type=value)` complaint for a mismatched or unknown
verb.  Width/precision flags are outside the subset this repository
exercises. -/
def fmtVerb (c : Char) (v : GoVal) : String :=
  if c = 'd' then
    match v with
    | .int n => Int.repr n
    | .str s => "%!d(string=" ++ s ++ ")"
  else if c = 's' then
    match v with
    | .str s => s
    | .int n => "%!s(int=" ++ Int.repr n ++ ")"
  else if c = 'v' then
    match v with
    | .str s => s
    | .int n => Int.repr n
  else
    match v with
    | .int n => "%!" ++ String.singleton c ++ "(int=" ++ Int.repr n ++ ")"
    | .str s => "%!" ++ String.singleton c ++ "(string=" ++ s ++ ")"

/-- Go's rendering of one value in the `%!(EXTRA ...)` trailer. -/
def goValTagged : GoVal → String
  | .int n => "int=" ++ Int.repr n
  | .str s => "string=" ++ s

/-- `fmt.Sprintf` over the character list of the format string: `%%`
renders one percent sign, a verb consumes one argument, a verb with no
argument left renders `%!v(MISSING)`, leftover arguments are reported in
the `%!(EXTRA ...)` trailer, a bare trailing `%` renders `%!(NOVERB)`. -/
def sprintfAux : List Char → List GoVal → String
  | [], [] => ""
  | [], a :: rest =>
      "%!(EXTRA " ++ String.intercalate ", " ((a :: rest).map goValTagged) ++ ")"
  | ['%'], args => "%!(NOVERB)" ++ sprintfAux [] args
  | '%' :: c :: restF, args =>
      if c = '%' then "%" ++ sprintfAux restF args
      else
        match args with
        | [] => "%!" ++ String.singleton c ++ "(MISSING)" ++ sprintfAux restF []
        | a :: restA => fmtVerb c a ++ sprintfAux restF restA
  | c :: restF, args => String.singleton c ++ sprintfAux restF args

/-- `fmt.Sprintf(msg, v...)`. -/
def sprintf (msg : String) (v : List GoVal) : String :=
  sprintfAux msg.toList v

/-- The `fullMsg` computation shared by all five emission methods:
`fullMsg := msg; if len(v) > 0 \x7b fullMsg = fmt.Sprintf(msg, v...) \x7d`. -/
def renderMsg (msg : String) (v : List GoVal) : String :=
  if v.isEmpty then msg else sprintf msg v

/-- `func (l *Logger) Debug`: guard `l.level > DEBUG`, render, forward to
`log` at severity DEBUG. -/
def Debug (l : Logger) (env : Env) (msg : String) (v : List GoVal) : Logger × LogResult :=
  if DEBUG < l.level then (l, {}) else log l env DEBUG (renderMsg msg v)

/-- `func (l *Logger) Info`. -/
def Info (l : Logger) (env : Env) (msg : String) (v : List GoVal) : Logger × LogResult :=
  if INFO < l.level then (l, {}) else log l env INFO (renderMsg msg v)

/-- `func (l *Logger) Warning`. -/
def Warning (l : Logger) (env : Env) (msg : String) (v : List GoVal) : Logger × LogResult :=
  if WARNING < l.level then (l, {}) else log l env WARNING (renderMsg msg v)

/-- `func (l *Logger) Error`. -/
def Error (l : Logger) (env : Env) (msg : String) (v : List GoVal) : Logger × LogResult :=
  if ERROR < l.level then (l, {}) else log l env ERROR (renderMsg msg v)

/-- `func (l *Logger) Fatal`: same guard and emission, then
`os.Exit(1)`; the third component is the exit status requested from the
OS (`none` when the call returns to the caller instead). -/
def Fatal (l : Logger) (env : Env) (msg : String) (v : List GoVal) :
    Logger × LogResult × Option Nat :=
  if FATAL < l.level then (l, {}, none)
  else
    let r := log l env FATAL (renderMsg msg v)
    (r.1, r.2, some 1)

/-- `func (l *Logger) Close`: returns nil when `logFile` is nil, else
returns `l.logFile.Close()`.  Go's `File.Close` marks the `os.File`
closed; closing an already-closed handle returns `os.ErrClosed`.  `osErr`
is the error the OS reports for closing the open handle (environment
input).  The `logFile` field itself is not assigned. -/
def Close (l : Logger) (osErr : Option IOErr) : Logger × Option IOErr :=
  match l.logFile with
  | none => (l, none)
  | some h =>
      if h.isOpen then
        ({ l with logFile := some { h with isOpen := false } }, osErr)
      else
        (l, some IOErr.errClosed)

/-- `func (l *Logger) SetLevel`. -/
def SetLevel (l : Logger) (lvl : LogLevel) : Logger := { l with level := lvl }

/-- `func (l *Logger) WithColors`: writes only the process-global
`color.NoColor` flag; no field of the logger is touched. -/
def WithColors (l : Logger) (_enable : Bool) : Logger := l

/-- `func (l *Logger) WithTimeFormat`:
`if layout != "" \x7b l.timeFormat = layout \x7d`. -/
def WithTimeFormat (l : Logger) (layout : String) : Logger :=
  if layout = "" then l else { l with timeFormat := layout }

/-- `func (l *Logger) WithCaller`. -/
def WithCaller (l : Logger) (enable : Bool) : Logger := { l with withCaller := enable }

/-- `func (l *Logger) WithJSON`. -/
def WithJSON (l : Logger) : Logger := { l with jsonMode := true }

/-- `func (l *Logger) DisableFile`: under the lock, if `logFile` is
non-nil, close it (error discarded) and set the field to nil. -/
def DisableFile (l : Logger) : Logger :=
  match l.logFile with
  | none => l
  | some _ => { l with logFile := none }

/-- `func (l *Logger) EnableFile`: under the lock, close any existing
handle (error discarded; the field keeps pointing at the now-closed
handle), then `os.OpenFile(path, O_APPEND|O_CREATE|O_WRONLY, 0666)`:
on failure return the error without assigning `logFile`; on success
install the fresh open handle.  `openRes` is the OS outcome: `some id`
is a fresh open file description, `none` an open failure. -/
def EnableFile (l : Logger) (openRes : Option Nat) : Logger × Option IOErr :=
  let l1 : Logger :=
    match l.logFile with
    | some h => { l with logFile := some { h with isOpen := false } }
    | none => l
  match openRes with
  | none => (l1, some IOErr.openFail)
  | some id => ({ l1 with logFile := some { id := id, isOpen := true } }, none)

/-- `func NewLogger`: open the path append/create/write-only; on failure
return the error; on success a logger with level DEBUG, the default time
format, caller reporting off, JSON mode off, and the open handle
installed.  (The `FORCE_COLOR`/`NO_COLOR` handling writes only the
process-global color flag.) -/
def NewLogger (openRes : Option Nat) : Option Logger :=
  openRes.map (fun id =>
    { logFile := some { id := id, isOpen := true }
      level := DEBUG
      timeFormat := "2006-01-02 15:04:05"
      withCaller := false
      jsonMode := false })

/-- The spec's sink invariant: the file-sink field is either nil or an
open handle ("closed-and-nil or open-and-writable"). -/
def sinkInvB (l : Logger) : Bool :=
  match l.logFile with
  | none => true
  | some h => h.isOpen

/-- Whether the writer holds an installed, open file sink. -/
def hasActiveSink (l : Logger) : Bool :=
  match l.logFile with
  | none => false
  | some h => h.isOpen

/-- Bare severity name, as the spec's independent lookup (for comparison
with the slice-derived `level` field and the bracketed tags). -/
def severityName (lvl : LogLevel) : String :=
  if lvl = DEBUG then "DEBUG"
  else if lvl = INFO then "INFO"
  else if lvl = WARNING then "WARNING"
  else if lvl = ERROR then "ERROR"
  else if lvl = FATAL then "FATAL"
  else ""

/-- Occurrences of a character in a string. -/
def countChar (c : Char) (s : String) : Nat := s.toList.count c

/-- Fixture environment for concrete witnesses. -/
def envW : Env :=
  { clock := fun _ => "2025-01-01 00:00:00"
    consoleClock := "00:00:00"
    callerInfo := some ("/a/b/main.go", 12) }

/-- Fixture writer: the state `NewLogger` hands back for a fresh handle. -/
def loggerW : Logger :=
  { logFile := some { id := 0, isOpen := true }
    level := DEBUG
    timeFormat := "2006-01-02 15:04:05"
    withCaller := false
    jsonMode := false }

/-- `log` assigns no field of the receiver, so the state comes back as it
went in. -/
theorem log_fst (l : Logger) (env : Env) (lvl : LogLevel) (msg : String) :
    (log l env lvl msg).1 = l := by
  rw [log]
  split
  · rfl
  · cases hl : l.logFile
    · simp [hl]
    · simp only [hl]
      split <;> rfl

/-- Closed form of the console component of `log`: it depends only on
the threshold, the severity, the message and the console clock — never
on the file sink. -/
theorem log_console (l : Logger) (env : Env) (lvl : LogLevel) (msg : String) :
    (log l env lvl msg).2.console =
      if lvl < l.level then none
      else (consoleTag lvl).map (fun tag => tag ++ env.consoleClock ++ " " ++ msg ++ "\n") := by
  by_cases hp : lvl < l.level
  · rw [log]
    simp [hp]
  · rw [log]
    rw [if_neg hp, if_neg hp]
    cases hl : l.logFile
    · simp [hl]
    · simp only [hl]
      split <;> rfl

/-- With a nil file sink, `log` attempts no file write at all. -/
theorem log_fileWrite_none (l : Logger) (env : Env) (lvl : LogLevel) (msg : String)
    (h : l.logFile = none) : (log l env lvl msg).2.fileWrite = none := by
  rw [log]
  split
  · rfl
  · simp [h]

/-- With no open sink installed, no bytes reach any file, whatever `log`
attempts. -/
theorem delivered_log_none (l : Logger) (env : Env) (lvl : LogLevel) (msg : String)
    (h : hasActiveSink l = false) : delivered (log l env lvl msg).2 = none := by
  unfold hasActiveSink at h
  rw [log]
  split
  · rfl
  · cases hl : l.logFile with
    | none => simp [hl, delivered]
    | some fh =>
        rw [hl] at h
        simp at h
        simp only [hl]
        split <;> simp [delivered, h]

/-- No emission method assigns a field of the receiver. -/
theorem emit_fst (l : Logger) (env : Env) (msg : String) (v : List GoVal) :
    (Debug l env msg v).1 = l ∧ (Info l env msg v).1 = l ∧ (Warning l env msg v).1 = l ∧
    (Error l env msg v).1 = l ∧ (Fatal l env msg v).1 = l := by
  refine ⟨?_, ?_, ?_, ?_, ?_⟩ <;>
    first
      | (rw [Debug]; split; · rfl
         · exact log_fst _ _ _ _)
      | (rw [Info]; split; · rfl
         · exact log_fst _ _ _ _)
      | (rw [Warning]; split; · rfl
         · exact log_fst _ _ _ _)
      | (rw [Error]; split; · rfl
         · exact log_fst _ _ _ _)
      | (rw [Fatal]; split; · rfl
         · simp [log_fst])

/-- `DisableFile` clears the sink field and touches nothing else. -/
theorem disableFile_state (l : Logger) :
    (DisableFile l).logFile = none ∧ (DisableFile l).level = l.level ∧
    (DisableFile l).timeFormat = l.timeFormat ∧ (DisableFile l).withCaller = l.withCaller ∧
    (DisableFile l).jsonMode = l.jsonMode := by
  cases hl : l.logFile <;> simp [DisableFile, hl]

/-- A failed `EnableFile` returns the open error, closes the prior handle
in place, and changes no other field; afterwards no open sink is
installed. -/
theorem enableFile_fail_state (l : Logger) :
    (EnableFile l none).2 = some IOErr.openFail ∧
    (EnableFile l none).1.level = l.level ∧
    (EnableFile l none).1.timeFormat = l.timeFormat ∧
    (EnableFile l none).1.withCaller = l.withCaller ∧
    (EnableFile l none).1.jsonMode = l.jsonMode ∧
    hasActiveSink (EnableFile l none).1 = false ∧
    (EnableFile l none).1.logFile = (l.logFile.map fun h => { h with isOpen := false }) := by
  cases hl : l.logFile <;> simp [EnableFile, hasActiveSink, hl]

/-- Console output of each emission method agrees between two writers
with the same threshold. -/
theorem methods_console_parity (l1 l2 : Logger) (env : Env) (msg : String) (v : List GoVal)
    (h : l1.level = l2.level) :
    (Debug l1 env msg v).2.console = (Debug l2 env msg v).2.console ∧
    (Info l1 env msg v).2.console = (Info l2 env msg v).2.console ∧
    (Warning l1 env msg v).2.console = (Warning l2 env msg v).2.console ∧
    (Error l1 env msg v).2.console = (Error l2 env msg v).2.console ∧
    (Fatal l1 env msg v).2.1.console = (Fatal l2 env msg v).2.1.console := by
  refine ⟨?_, ?_, ?_, ?_, ?_⟩
  · rw [Debug, Debug, h]
    split
    · rfl
    · rw [log_console, log_console, h]
  · rw [Info, Info, h]
    split
    · rfl
    · rw [log_console, log_console, h]
  · rw [Warning, Warning, h]
    split
    · rfl
    · rw [log_console, log_console, h]
  · rw [Error, Error, h]
    split
    · rfl
    · rw [log_console, log_console, h]
  · rw [Fatal, Fatal, h]
    split
    · rfl
    · simp only [log_console, h]

/-- C1: for every severity S and every threshold T with S < T, the
emission method for S returns immediately: no console bytes, no file
bytes, no caller resolution, no timestamp computation, the writer's state
unchanged (and, for `Fatal`, no process exit). -/
theorem C1_below_threshold_silent (l : Logger) (env : Env) (msg : String) (v : List GoVal) :
    (DEBUG < l.level → Debug l env msg v = (l, {})) ∧
    (INFO < l.level → Info l env msg v = (l, {})) ∧
    (WARNING < l.level → Warning l env msg v = (l, {})) ∧
    (ERROR < l.level → Error l env msg v = (l, {})) ∧
    (FATAL < l.level → Fatal l env msg v = (l, {}, none)) := by
  refine ⟨fun h => ?_, fun h => ?_, fun h => ?_, fun h => ?_, fun h => ?_⟩ <;>
    simp [Debug, Info, Warning, Error, Fatal, h]

/-- C1 at a concrete writer whose threshold 5 sits above every severity. -/
theorem C1_below_threshold_silent_witness :
    Debug { loggerW with level := 5 } envW "w %d" [GoVal.int 1] = ({ loggerW with level := 5 }, {}) ∧
    Info { loggerW with level := 5 } envW "w" [] = ({ loggerW with level := 5 }, {}) ∧
    Warning { loggerW with level := 5 } envW "w" [] = ({ loggerW with level := 5 }, {}) ∧
    Error { loggerW with level := 5 } envW "w" [] = ({ loggerW with level := 5 }, {}) ∧
    Fatal { loggerW with level := 5 } envW "w" [] = ({ loggerW with level := 5 }, {}, none) := by
  have h := C1_below_threshold_silent { loggerW with level := 5 } envW "w" []
  have h1 := C1_below_threshold_silent { loggerW with level := 5 } envW "w %d" [GoVal.int 1]
  exact ⟨h1.1 (by decide), h.2.1 (by decide), h.2.2.1 (by decide), h.2.2.2.1 (by decide),
    h.2.2.2.2 (by decide)⟩

/-- C2: a `Fatal` call below the threshold neither logs nor terminates;
at or above the threshold it performs the full emission sequence of `log`
and then requests process exit with status 1. -/
theorem C2_fatal_filter_vs_exit (l : Logger) (env : Env) (msg : String) (v : List GoVal) :
    (FATAL < l.level → Fatal l env msg v = (l, {}, none)) ∧
    (l.level ≤ FATAL →
      Fatal l env msg v = (l, (log l env FATAL (renderMsg msg v)).2, some 1)) := by
  constructor
  · intro h
    simp [Fatal, h]
  · intro h
    simp [Fatal, not_lt.mpr h, log_fst]

/-- C2 at threshold 5 (filtered: no exit) and at the default threshold
(emits, then exit status 1). -/
theorem C2_fatal_filter_vs_exit_witness :
    Fatal { loggerW with level := 5 } envW "f" [] = ({ loggerW with level := 5 }, {}, none) ∧
    Fatal loggerW envW "f" [] = (loggerW, (log loggerW envW FATAL (renderMsg "f" [])).2, some 1) := by
  exact ⟨(C2_fatal_filter_vs_exit { loggerW with level := 5 } envW "f" []).1 (by decide),
    (C2_fatal_filter_vs_exit loggerW envW "f" []).2 (by decide)⟩

/-- C5: `Close` is a success no-op when the file sink is absent; when an
open sink is present it marks the handle closed and returns whatever the
OS reported; in every case no open file sink remains afterwards. -/
theorem C5_close_marks_closed (l : Logger) (osErr : Option IOErr) :
    (l.logFile = none → Close l osErr = (l, none)) ∧
    (∀ h : FileHandle, l.logFile = some h → h.isOpen = true →
      (Close l osErr).1 = { l with logFile := some { h with isOpen := false } } ∧
      (Close l osErr).2 = osErr) ∧
    hasActiveSink (Close l osErr).1 = false := by
  refine ⟨fun hl => ?_, fun h hl hop => ?_, ?_⟩
  · simp [Close, hl]
  · simp [Close, hl, hop]
  · cases hl : l.logFile with
    | none => simp [Close, hasActiveSink, hl]
    | some h => by_cases hop : h.isOpen <;> simp [Close, hasActiveSink, hl, hop]

/-- C5 at a writer with no sink and at one with an open sink whose close
reports an error. -/
theorem C5_close_marks_closed_witness :
    Close { loggerW with logFile := none } none = ({ loggerW with logFile := none }, none) ∧
    (Close loggerW (some IOErr.closeFail)).1 =
      { loggerW with logFile := some { id := 0, isOpen := false } } ∧
    (Close loggerW (some IOErr.closeFail)).2 = some IOErr.closeFail := by
  have h1 := (C5_close_marks_closed { loggerW with logFile := none } none).1 (by decide)
  have h2 := (C5_close_marks_closed loggerW (some IOErr.closeFail)).2.1
    { id := 0, isOpen := true } (by decide) (by decide)
  exact ⟨h1, h2.1, h2.2⟩

/-- C9: `WithTimeFormat ""` is the identity on the writer (prior format
retained, nothing else touched); a non-empty layout replaces exactly the
time format. -/
theorem C9_withTimeFormat_empty_ignored (l : Logger) (layout : String) :
    WithTimeFormat l "" = l ∧
    (layout ≠ "" → WithTimeFormat l layout = { l with timeFormat := layout }) := by
  constructor
  · simp [WithTimeFormat]
  · intro h
    simp [WithTimeFormat, h]

/-- C9 at the fixture writer and the layout `"15:04"`. -/
theorem C9_withTimeFormat_empty_ignored_witness :
    WithTimeFormat loggerW "" = loggerW ∧
    WithTimeFormat loggerW "15:04" = { loggerW with timeFormat := "15:04" } := by
  exact ⟨(C9_withTimeFormat_empty_ignored loggerW "15:04").1,
    (C9_withTimeFormat_empty_ignored loggerW "15:04").2 (by decide)⟩

/-- C10: with zero variadic arguments every emission method passes the
template through verbatim (no verb is interpreted); with one or more
arguments it applies `fmt.Sprintf` to the template; each method emits the
rendered message through `log` when it passes the threshold. -/
theorem C10_variadic_verbatim_or_sprintf (l : Logger) (env : Env) (msg : String) (v : List GoVal) :
    renderMsg msg [] = msg ∧
    (v ≠ [] → renderMsg msg v = sprintf msg v) ∧
    renderMsg "%d%%" [] = "%d%%" ∧
    sprintf "%d%%" [GoVal.int 5] = "5%" ∧
    (l.level ≤ DEBUG → Debug l env msg v = log l env DEBUG (renderMsg msg v)) ∧
    (l.level ≤ INFO → Info l env msg v = log l env INFO (renderMsg msg v)) ∧
    (l.level ≤ WARNING → Warning l env msg v = log l env WARNING (renderMsg msg v)) ∧
    (l.level ≤ ERROR → Error l env msg v = log l env ERROR (renderMsg msg v)) ∧
    (l.level ≤ FATAL → Fatal l env msg v = (l, (log l env FATAL (renderMsg msg v)).2, some 1)) := by
  refine ⟨by simp [renderMsg], fun h => ?_, by decide, by decide,
    fun h => ?_, fun h => ?_, fun h => ?_, fun h => ?_, fun h => ?_⟩
  · cases v with
    | nil => exact absurd rfl h
    | cons a t => simp [renderMsg]
  · simp [Debug, not_lt.mpr h]
  · simp [Info, not_lt.mpr h]
  · simp [Warning, not_lt.mpr h]
  · simp [Error, not_lt.mpr h]
  · simp [Fatal, not_lt.mpr h, log_fst]

/-- C10 at the fixture writer with the template `"%d"` and one integer
argument. -/
theorem C10_variadic_verbatim_or_sprintf_witness :
    renderMsg "%d" [GoVal.int 5] = sprintf "%d" [GoVal.int 5] ∧
    Debug loggerW envW "%d" [GoVal.int 5] = log loggerW envW DEBUG (renderMsg "%d" [GoVal.int 5]) ∧
    Info loggerW envW "%d" [GoVal.int 5] = log loggerW envW INFO (renderMsg "%d" [GoVal.int 5]) ∧
    Warning loggerW envW "%d" [GoVal.int 5] = log loggerW envW WARNING (renderMsg "%d" [GoVal.int 5]) ∧
    Error loggerW envW "%d" [GoVal.int 5] = log loggerW envW ERROR (renderMsg "%d" [GoVal.int 5]) ∧
    Fatal loggerW envW "%d" [GoVal.int 5] =
      (loggerW, (log loggerW envW FATAL (renderMsg "%d" [GoVal.int 5])).2, some 1) := by
  obtain ⟨-, h2, -, -, h5, h6, h7, h8, h9⟩ :=
    C10_variadic_verbatim_or_sprintf loggerW envW "%d" [GoVal.int 5]
  exact ⟨h2 (by decide), h5 (by decide), h6 (by decide), h7 (by decide), h8 (by decide),
    h9 (by decide)⟩

/-- C8: `DisableFile` is idempotent; after it, every emission method
attempts no file write at all while its console output is exactly what
the un-disabled writer would print; a subsequent successful `EnableFile`
installs a fresh open sink. -/
theorem C8_disableFile_idempotent_silent (l : Logger) (env : Env) (msg : String) (v : List GoVal) :
    DisableFile (DisableFile l) = DisableFile l ∧
    (Debug (DisableFile l) env msg v).2.fileWrite = none ∧
    (Info (DisableFile l) env msg v).2.fileWrite = none ∧
    (Warning (DisableFile l) env msg v).2.fileWrite = none ∧
    (Error (DisableFile l) env msg v).2.fileWrite = none ∧
    (Fatal (DisableFile l) env msg v).2.1.fileWrite = none ∧
    (Debug (DisableFile l) env msg v).2.console = (Debug l env msg v).2.console ∧
    (Info (DisableFile l) env msg v).2.console = (Info l env msg v).2.console ∧
    (Warning (DisableFile l) env msg v).2.console = (Warning l env msg v).2.console ∧
    (Error (DisableFile l) env msg v).2.console = (Error l env msg v).2.console ∧
    (Fatal (DisableFile l) env msg v).2.1.console = (Fatal l env msg v).2.1.console ∧
    (∀ id : Nat,
      (EnableFile (DisableFile l) (some id)).1.logFile = some { id := id, isOpen := true }) := by
  obtain ⟨hnone, hlev, -, -, -⟩ := disableFile_state l
  obtain ⟨pd, pi, pw, pe, pf⟩ := methods_console_parity (DisableFile l) l env msg v hlev
  refine ⟨?_, ?_, ?_, ?_, ?_, ?_, pd, pi, pw, pe, pf, ?_⟩
  · rw [DisableFile]
    rw [hnone]
  · rw [Debug]
    split
    · rfl
    · exact log_fileWrite_none _ _ _ _ hnone
  · rw [Info]
    split
    · rfl
    · exact log_fileWrite_none _ _ _ _ hnone
  · rw [Warning]
    split
    · rfl
    · exact log_fileWrite_none _ _ _ _ hnone
  · rw [Error]
    split
    · rfl
    · exact log_fileWrite_none _ _ _ _ hnone
  · rw [Fatal]
    split
    · rfl
    · simp only []
      exact log_fileWrite_none _ _ _ _ hnone
  · intro id
    simp [EnableFile, hnone]

/-- C3: a failed `EnableFile` returns the open error and leaves no open
file sink (the prior one is already closed), so every subsequent emission
delivers no bytes to any file, while console emission still functions —
each method's console line is what the original writer would print, and
an enabled severity still prints its tagged line. -/
theorem C3_enableFile_failure_no_sink (l : Logger) (env : Env) (msg : String) (v : List GoVal) :
    (EnableFile l none).2 = some IOErr.openFail ∧
    hasActiveSink (EnableFile l none).1 = false ∧
    delivered (Debug (EnableFile l none).1 env msg v).2 = none ∧
    delivered (Info (EnableFile l none).1 env msg v).2 = none ∧
    delivered (Warning (EnableFile l none).1 env msg v).2 = none ∧
    delivered (Error (EnableFile l none).1 env msg v).2 = none ∧
    delivered (Fatal (EnableFile l none).1 env msg v).2.1 = none ∧
    (Debug (EnableFile l none).1 env msg v).2.console = (Debug l env msg v).2.console ∧
    (Info (EnableFile l none).1 env msg v).2.console = (Info l env msg v).2.console ∧
    (Warning (EnableFile l none).1 env msg v).2.console = (Warning l env msg v).2.console ∧
    (Error (EnableFile l none).1 env msg v).2.console = (Error l env msg v).2.console ∧
    (Fatal (EnableFile l none).1 env msg v).2.1.console = (Fatal l env msg v).2.1.console ∧
    (l.level ≤ INFO →
      (Info (EnableFile l none).1 env msg v).2.console =
        some ("[INFO] " ++ env.consoleClock ++ " " ++ renderMsg msg v ++ "\n")) := by
  obtain ⟨herr, hlev, -, -, -, hact, -⟩ := enableFile_fail_state l
  obtain ⟨pd, pi, pw, pe, pf⟩ := methods_console_parity (EnableFile l none).1 l env msg v hlev
  refine ⟨herr, hact, ?_, ?_, ?_, ?_, ?_, pd, pi, pw, pe, pf, ?_⟩
  · rw [Debug]
    split
    · rfl
    · exact delivered_log_none _ _ _ _ hact
  · rw [Info]
    split
    · rfl
    · exact delivered_log_none _ _ _ _ hact
  · rw [Warning]
    split
    · rfl
    · exact delivered_log_none _ _ _ _ hact
  · rw [Error]
    split
    · rfl
    · exact delivered_log_none _ _ _ _ hact
  · rw [Fatal]
    split
    · rfl
    · simp only []
      exact delivered_log_none _ _ _ _ hact
  · intro hpass
    rw [Info]
    rw [hlev]
    rw [if_neg (not_lt.mpr hpass)]
    rw [log_console, hlev]
    rw [if_neg (not_lt.mpr hpass)]
    simp [consoleTag, INFO, DEBUG]

/-- C3 at a writer holding an open sink for file 0: the failed call
reports the error, no open sink remains, an `Info` emission delivers
nothing to any file yet still prints its console line. -/
theorem C3_enableFile_failure_no_sink_witness :
    (EnableFile loggerW none).2 = some IOErr.openFail ∧
    hasActiveSink (EnableFile loggerW none).1 = false ∧
    delivered (Info (EnableFile loggerW none).1 envW "hello" []).2 = none ∧
    (Info (EnableFile loggerW none).1 envW "hello" []).2.console =
      some ("[INFO] " ++ envW.consoleClock ++ " " ++ renderMsg "hello" [] ++ "\n") := by
  obtain ⟨h1, h2, -, h4, -, -, -, -, -, -, -, -, h13⟩ :=
    C3_enableFile_failure_no_sink loggerW envW "hello" []
  exact ⟨h1, h2, h4, h13 (by decide)⟩

/-- C4 counterexample: on a writer satisfying the invariant, a successful
`Close` — and likewise a failed `EnableFile` — leaves a non-nil handle
that has been closed, so "every operation preserves closed-and-nil or
open-and-writable" is false as stated. -/
theorem C4_sink_invariant_counterexample :
    sinkInvB loggerW = true ∧
    (Close loggerW none).2 = none ∧
    sinkInvB (Close loggerW none).1 = false ∧
    (Close loggerW none).1.logFile = some { id := 0, isOpen := false } ∧
    sinkInvB (EnableFile loggerW none).1 = false ∧
    (EnableFile loggerW none).1.logFile = some { id := 0, isOpen := false } := by
  decide

/-- C4 (amended): construction, the five emission methods, every
reconfiguration method, `DisableFile` and successful `EnableFile`
preserve the invariant that the file-sink field is nil or an open
handle.  `Close` and a failed `EnableFile` break the nil half — they
leave the prior handle installed but closed — though even they never
leave an open sink behind. -/
theorem C4_sink_invariant_amended (l : Logger) (env : Env) (msg : String) (v : List GoVal)
    (lvl : LogLevel) (b : Bool) (layout : String) (id : Nat) (openRes : Option Nat)
    (hinv : sinkInvB l = true) :
    (∀ l0, NewLogger openRes = some l0 → sinkInvB l0 = true) ∧
    sinkInvB (Debug l env msg v).1 = true ∧
    sinkInvB (Info l env msg v).1 = true ∧
    sinkInvB (Warning l env msg v).1 = true ∧
    sinkInvB (Error l env msg v).1 = true ∧
    sinkInvB (Fatal l env msg v).1 = true ∧
    sinkInvB (SetLevel l lvl) = true ∧
    sinkInvB (WithColors l b) = true ∧
    sinkInvB (WithTimeFormat l layout) = true ∧
    sinkInvB (WithCaller l b) = true ∧
    sinkInvB (WithJSON l) = true ∧
    sinkInvB (DisableFile l) = true ∧
    sinkInvB (EnableFile l (some id)).1 = true ∧
    (∀ e : Option IOErr, hasActiveSink (Close l e).1 = false) ∧
    hasActiveSink (EnableFile l none).1 = false := by
  obtain ⟨hd, hi, hw, he, hf⟩ := emit_fst l env msg v
  refine ⟨?_, ?_, ?_, ?_, ?_, ?_, ?_, ?_, ?_, ?_, ?_, ?_, ?_, ?_, ?_⟩
  · intro l0 h0
    cases openRes with
    | none => simp [NewLogger] at h0
    | some nid =>
        simp [NewLogger] at h0
        rw [← h0]
        rfl
  · rw [hd]; exact hinv
  · rw [hi]; exact hinv
  · rw [hw]; exact hinv
  · rw [he]; exact hinv
  · rw [hf]; exact hinv
  · cases hl : l.logFile <;> simp [sinkInvB, SetLevel, hl] <;> simpa [sinkInvB, hl] using hinv
  · cases hl : l.logFile <;> simp [sinkInvB, WithColors, hl] <;> simpa [sinkInvB, hl] using hinv
  · rw [WithTimeFormat]
    split
    · exact hinv
    · cases hl : l.logFile <;> simp [sinkInvB, hl] <;> simpa [sinkInvB, hl] using hinv
  · cases hl : l.logFile <;> simp [sinkInvB, WithCaller, hl] <;> simpa [sinkInvB, hl] using hinv
  · cases hl : l.logFile <;> simp [sinkInvB, WithJSON, hl] <;> simpa [sinkInvB, hl] using hinv
  · cases hl : l.logFile <;> simp [sinkInvB, DisableFile, hl]
  · cases hl : l.logFile <;> simp [sinkInvB, EnableFile, hl]
  · intro e
    cases hl : l.logFile with
    | none => simp [Close, hasActiveSink, hl]
    | some h => by_cases hop : h.isOpen <;> simp [Close, hasActiveSink, hl, hop]
  · exact (enableFile_fail_state l).2.2.2.2.2.1

/-- C4 (amended) at the fixture writer: reconfiguration, disabling, and a
successful re-enable keep the invariant; a close and a failed re-enable
leave no open sink. -/
theorem C4_sink_invariant_amended_witness :
    sinkInvB (SetLevel loggerW 3) = true ∧
    sinkInvB (DisableFile loggerW) = true ∧
    sinkInvB (EnableFile loggerW (some 7)).1 = true ∧
    hasActiveSink (Close loggerW none).1 = false ∧
    hasActiveSink (EnableFile loggerW none).1 = false := by
  obtain ⟨-, -, -, -, -, -, h7, -, -, -, -, h12, h13, h14, h15⟩ :=
    C4_sink_invariant_amended loggerW envW "m" [] 3 true "x" 7 (some 7) (by decide)
  exact ⟨h7, h12, h13, h14 none, h15⟩

/-- Counting a character distributes over string concatenation. -/
theorem countChar_append (c : Char) (a b : String) :
    countChar c (a ++ b) = countChar c a + countChar c b := by
  simp [countChar, String.toList, String.data_append]

/-- Counting a character in a one-character string. -/
theorem countChar_singleton (a b : Char) :
    countChar a (String.singleton b) = if b = a then 1 else 0 := by
  simp [countChar, String.toList, String.singleton, List.count_cons, List.count_nil]

/-- A string with a `:` in the middle is never empty. -/
theorem append_colon_ne_empty (a b : String) : a ++ ":" ++ b ≠ "" := by
  intro h
  have h2 : (a ++ ":" ++ b).data = ("" : String).data := congrArg String.data h
  simp [String.data_append] at h2

/-- The caller string is empty exactly when caller reporting is off or
stack resolution failed; a resolved caller always renders non-empty. -/
theorem callerOf_empty_iff (l : Logger) (env : Env) :
    callerOf l env = "" ↔ (l.withCaller = false ∨ env.callerInfo = none) := by
  unfold callerOf
  by_cases hw : l.withCaller
  · cases hc : env.callerInfo with
    | none => simp [hw]
    | some p => simp [hw, append_colon_ne_empty]
  · simp [hw]

/-- The bracketed tags and the slice `levelStr[1:len-2]` all agree with
the bare severity name, for each of the five severities. -/
theorem levelStr_bracket (lvl : LogLevel)
    (hlvl : lvl = DEBUG ∨ lvl = INFO ∨ lvl = WARNING ∨ lvl = ERROR ∨ lvl = FATAL) :
    levelStr lvl = "[" ++ severityName lvl ++ "] " ∧
    consoleTag lvl = some ("[" ++ severityName lvl ++ "] ") ∧
    levelSlice (levelStr lvl) = severityName lvl ∧
    countChar '\n' (severityName lvl) = 0 ∧
    countChar '<' (severityName lvl) = 0 ∧
    countChar '>' (severityName lvl) = 0 ∧
    countChar '&' (severityName lvl) = 0 := by
  rcases hlvl with h | h | h | h | h <;> subst h <;>
    exact ⟨by decide, by decide, by decide, by decide, by decide, by decide, by decide⟩

/-- `hexDigit` on the arguments `jsonEscapeChar` uses never yields a
newline, `<`, `>` or `&`. -/
theorem hexDigit_harmless :
    ∀ n, n < 16 →
      countChar '\n' (String.singleton (hexDigit n)) = 0 ∧
      countChar '<' (String.singleton (hexDigit n)) = 0 ∧
      countChar '>' (String.singleton (hexDigit n)) = 0 ∧
      countChar '&' (String.singleton (hexDigit n)) = 0 := by
  decide

/-- The escape of any single character contains no newline: `\n` itself
is rewritten to a two-character escape, control characters to `\u00XX`. -/
theorem jsonEscapeChar_no_newline (c : Char) : countChar '\n' (jsonEscapeChar c) = 0 := by
  unfold jsonEscapeChar
  split
  · decide
  · split
    · decide
    · split
      · decide
      · split
        · decide
        · split
          · decide
          · split
            · rename_i h1 h2 h3 h4 h5 h6
              rw [countChar_append, countChar_append]
              rw [(hexDigit_harmless (c.toNat / 16) (by omega)).1]
              rw [(hexDigit_harmless (c.toNat % 16) (Nat.mod_lt _ (by omega))).1]
              decide
            · split
              · rename_i h
                rw [countChar_append]
                rcases h with h | h <;>
                  rw [h] <;>
                  rw [(hexDigit_harmless _ (by omega)).1] <;>
                  decide
              · rename_i h1 h2 h3 h4 h5 h6 h7
                rw [countChar_singleton]
                rw [if_neg]
                intro he
                subst he
                exact h3 rfl

/-- The escape of a single character contains `<` (resp. `>`, `&`)
exactly as often as the character is that symbol: markup characters pass
through `SetEscapeHTML(false)` encoding untouched and arise from nothing
else. -/
theorem jsonEscapeChar_markup (ch : Char) (hch : ch = '<' ∨ ch = '>' ∨ ch = '&') (c : Char) :
    countChar ch (jsonEscapeChar c) = if c = ch then 1 else 0 := by
  have hne32 : 32 ≤ ch.toNat := by rcases hch with h | h | h <;> subst h <;> decide
  have hne2028 : ch.toNat ≠ 8232 ∧ ch.toNat ≠ 8233 := by
    rcases hch with h | h | h <;> subst h <;> exact ⟨by decide, by decide⟩
  unfold jsonEscapeChar
  split
  · rename_i h
    subst h
    rcases hch with h | h | h <;> subst h <;> decide
  · split
    · rename_i h
      subst h
      rcases hch with h | h | h <;> subst h <;> decide
    · split
      · rename_i h
        subst h
        rcases hch with h | h | h <;> subst h <;> decide
      · split
        · rename_i h
          subst h
          rcases hch with h | h | h <;> subst h <;> decide
        · split
          · rename_i h
            subst h
            rcases hch with h | h | h <;> subst h <;> decide
          · split
            · rename_i h
              have hne : c ≠ ch := by
                intro he
                subst he
                omega
              rw [if_neg hne, countChar_append, countChar_append]
              obtain ⟨e1, e2, e3, e4⟩ := hexDigit_harmless (c.toNat / 16) (by omega)
              obtain ⟨f1, f2, f3, f4⟩ := hexDigit_harmless (c.toNat % 16) (Nat.mod_lt _ (by omega))
              rcases hch with h | h | h <;> subst h <;>
                simp [e2, e3, e4, f2, f3, f4] <;> decide
            · split
              · rename_i h
                have hne : c ≠ ch := by
                  intro he
                  subst he
                  rcases h with h | h <;> omega
                rw [if_neg hne, countChar_append]
                have hlt : c.toNat % 16 < 16 := Nat.mod_lt _ (by omega)
                obtain ⟨f1, f2, f3, f4⟩ := hexDigit_harmless (c.toNat % 16) hlt
                rcases hch with h | h | h <;> subst h <;> simp [f2, f3, f4] <;> decide
              · rw [countChar_singleton]

/-- `escapeAll` contains no newline. -/
theorem escapeAll_no_newline (cs : List Char) : countChar '\n' (escapeAll cs) = 0 := by
  induction cs with
  | nil => decide
  | cons c t ih => rw [escapeAll, countChar_append, jsonEscapeChar_no_newline, ih]

/-- `escapeAll` preserves the number of markup-character occurrences. -/
theorem escapeAll_markup (ch : Char) (hch : ch = '<' ∨ ch = '>' ∨ ch = '&') (cs : List Char) :
    countChar ch (escapeAll cs) = cs.count ch := by
  induction cs with
  | nil =>
      rcases hch with h | h | h <;> subst h <;> decide
  | cons c t ih =>
      rw [escapeAll, countChar_append, jsonEscapeChar_markup ch hch, ih,
        List.count_cons]
      by_cases hc : c = ch <;> simp [hc, Nat.add_comm]

/-- A JSON string literal under `SetEscapeHTML(false)` is newline-free
and keeps every `<`, `>`, `&` of the source text, adding none. -/
theorem jsonQuote_counts (s : String) :
    countChar '\n' (jsonQuote s) = 0 ∧
    countChar '<' (jsonQuote s) = countChar '<' s ∧
    countChar '>' (jsonQuote s) = countChar '>' s ∧
    countChar '&' (jsonQuote s) = countChar '&' s := by
  unfold jsonQuote
  refine ⟨?_, ?_, ?_, ?_⟩
  · rw [countChar_append, countChar_append, escapeAll_no_newline]
    decide
  · rw [countChar_append, countChar_append, escapeAll_markup '<' (Or.inl rfl)]
    simp [countChar]
  · rw [countChar_append, countChar_append, escapeAll_markup '>' (Or.inr (Or.inl rfl))]
    simp [countChar]
  · rw [countChar_append, countChar_append, escapeAll_markup '&' (Or.inr (Or.inr rfl))]
    simp [countChar]

/-- The plain-text file record body the spec prescribes:
`<time> [SEVERITY] <message>` with ` (<caller>)` appended when a caller
was resolved. -/
def plainBody (l : Logger) (env : Env) (lvl : LogLevel) (msg : String) : String :=
  env.clock l.timeFormat ++ " " ++ ("[" ++ severityName lvl ++ "] ") ++ msg ++
    (if callerOf l env = "" then "" else " (" ++ callerOf l env ++ ")")

/-- The console line body the spec prescribes: bracketed tag, the console
writer's own time header, the message. -/
def consoleBody (env : Env) (lvl : LogLevel) (msg : String) : String :=
  ("[" ++ severityName lvl ++ "] ") ++ env.consoleClock ++ " " ++ msg

/-- C6: an emission at or above the threshold in plain-text mode writes
to the file exactly `<time> [SEVERITY] <message>`, with ` (<caller>)`
appended exactly when caller resolution was on and succeeded, terminated
by exactly one newline; the console likewise prints exactly one line.
(The newline-count hypotheses say the rendered message, timestamp,
caller and console clock are single-line texts.) -/
theorem C6_plaintext_one_line (l : Logger) (env : Env) (lvl : LogLevel) (msg : String)
    (fh : FileHandle)
    (hjson : l.jsonMode = false) (hfile : l.logFile = some fh)
    (hlvl : lvl = DEBUG ∨ lvl = INFO ∨ lvl = WARNING ∨ lvl = ERROR ∨ lvl = FATAL)
    (hpass : l.level ≤ lvl)
    (hmsg : countChar '\n' msg = 0)
    (htime : countChar '\n' (env.clock l.timeFormat) = 0)
    (hcaller : countChar '\n' (callerOf l env) = 0)
    (hclock : countChar '\n' env.consoleClock = 0) :
    (log l env lvl msg).2.fileWrite = some (fh, plainBody l env lvl msg ++ "\n") ∧
    countChar '\n' (plainBody l env lvl msg) = 0 ∧
    (log l env lvl msg).2.console = some (consoleBody env lvl msg ++ "\n") ∧
    countChar '\n' (consoleBody env lvl msg) = 0 ∧
    (callerOf l env = "" ↔ l.withCaller = false ∨ env.callerInfo = none) := by
  obtain ⟨hstr, htag, -, hname, -, -, -⟩ := levelStr_bracket lvl hlvl
  have hp : ¬ lvl < l.level := not_lt.mpr hpass
  refine ⟨?_, ?_, ?_, ?_, callerOf_empty_iff l env⟩
  · rw [log, if_neg hp]
    simp only [hfile, hjson, Bool.false_eq_true, if_false]
    rw [hstr]
    unfold plainBody
    by_cases hc : callerOf l env = ""
    · simp [hc]
    · simp [hc, String.append_assoc]
  · unfold plainBody
    by_cases hc : callerOf l env = ""
    · simp only [hc, if_pos]
      simp [countChar_append, htime, hmsg, hname]
      decide
    · simp only [hc, if_neg]
      simp [countChar_append, htime, hmsg, hname, hcaller]
      decide
  · rw [log_console, if_neg hp, htag]
    unfold consoleBody
    rfl
  · unfold consoleBody
    simp [countChar_append, hclock, hmsg, hname]
    decide

/-- C6 at a concrete caller-reporting writer: the record and console line
evaluate to the expected strings. -/
theorem C6_plaintext_one_line_witness :
    (log { loggerW with withCaller := true } envW INFO "hello").2.fileWrite =
      some ({ id := 0, isOpen := true },
        plainBody { loggerW with withCaller := true } envW INFO "hello" ++ "\n") ∧
    plainBody { loggerW with withCaller := true } envW INFO "hello" =
      "2025-01-01 00:00:00 [INFO] hello (main.go:12)" ∧
    (log { loggerW with withCaller := true } envW INFO "hello").2.console =
      some (consoleBody envW INFO "hello" ++ "\n") ∧
    consoleBody envW INFO "hello" = "[INFO] 00:00:00 hello" := by
  obtain ⟨h1, -, h3, -, -⟩ :=
    C6_plaintext_one_line { loggerW with withCaller := true } envW INFO "hello"
      { id := 0, isOpen := true } (by decide) (by decide) (Or.inr (Or.inl rfl)) (by decide)
      (by decide) (by decide) (by decide) (by decide)
  exact ⟨h1, by decide, h3, by decide⟩

/-- The structured-mode file record body the spec prescribes: a flat
object with keys `caller` (only when resolved), `level` (bare severity
name), `msg`, `time` — in the sorted key order `encoding/json` uses for
maps. -/
def jsonBody (l : Logger) (env : Env) (lvl : LogLevel) (msg : String) : String :=
  "\x7b" ++
    (if callerOf l env = "" then ""
      else "\"caller\":" ++ jsonQuote (callerOf l env) ++ ",") ++
    "\"level\":" ++ jsonQuote (severityName lvl) ++ ",\"msg\":" ++ jsonQuote msg ++
    ",\"time\":" ++ jsonQuote (env.clock l.timeFormat) ++ "\x7d"

/-- C7: an emission at or above the threshold in structured mode writes
one self-delimited line: keys `time`, `level`, `msg`, with `caller`
present exactly when a caller was resolved; the `level` value is the bare
severity name (quoted, no brackets); the body contains no newline
whatever the inputs hold; and the encoder leaves every `<`, `>`, `&` of
the message untouched. -/
theorem C7_json_record_format (l : Logger) (env : Env) (lvl : LogLevel) (msg : String)
    (fh : FileHandle)
    (hjson : l.jsonMode = true) (hfile : l.logFile = some fh)
    (hlvl : lvl = DEBUG ∨ lvl = INFO ∨ lvl = WARNING ∨ lvl = ERROR ∨ lvl = FATAL)
    (hpass : l.level ≤ lvl) :
    (log l env lvl msg).2.fileWrite = some (fh, jsonBody l env lvl msg ++ "\n") ∧
    countChar '\n' (jsonBody l env lvl msg) = 0 ∧
    jsonQuote (severityName lvl) = "\"" ++ severityName lvl ++ "\"" ∧
    countChar '<' (jsonQuote msg) = countChar '<' msg ∧
    countChar '>' (jsonQuote msg) = countChar '>' msg ∧
    countChar '&' (jsonQuote msg) = countChar '&' msg ∧
    (callerOf l env = "" ↔ l.withCaller = false ∨ env.callerInfo = none) := by
  obtain ⟨-, -, hslice, -, -, -, -⟩ := levelStr_bracket lvl hlvl
  have hp : ¬ lvl < l.level := not_lt.mpr hpass
  refine ⟨?_, ?_, ?_, (jsonQuote_counts msg).2.1, (jsonQuote_counts msg).2.2.1,
    (jsonQuote_counts msg).2.2.2, callerOf_empty_iff l env⟩
  · rw [log, if_neg hp]
    simp only [hfile, hjson, if_true]
    rw [hslice]
    unfold jsonBody jsonRecord
    by_cases hc : callerOf l env = ""
    · simp [hc, String.append_assoc]
    · simp [hc, String.append_assoc]
      rw [← String.append_assoc "\x7b" "\"caller\":"]
      simp
  · unfold jsonBody
    by_cases hc : callerOf l env = ""
    · simp only [hc, if_pos]
      simp [countChar_append, (jsonQuote_counts (severityName lvl)).1,
        (jsonQuote_counts msg).1, (jsonQuote_counts (env.clock l.timeFormat)).1]
      decide
    · simp only [hc, if_neg]
      simp [countChar_append, (jsonQuote_counts (callerOf l env)).1,
        (jsonQuote_counts (severityName lvl)).1, (jsonQuote_counts msg).1,
        (jsonQuote_counts (env.clock l.timeFormat)).1]
      decide
  · rcases hlvl with h | h | h | h | h <;> subst h <;> decide

/-- C7 at a concrete structured-mode writer and a message holding `<`,
`&`, `>`: the record keeps them verbatim. -/
theorem C7_json_record_format_witness :
    (log { loggerW with jsonMode := true, withCaller := true } envW INFO "a<&>b").2.fileWrite =
      some ({ id := 0, isOpen := true },
        jsonBody { loggerW with jsonMode := true, withCaller := true } envW INFO "a<&>b" ++ "\n") ∧
    jsonBody { loggerW with jsonMode := true, withCaller := true } envW INFO "a<&>b" =
      "\x7b\"caller\":\"main.go:12\",\"level\":\"INFO\",\"msg\":\"a<&>b\",\"time\":\"2025-01-01 00:00:00\"\x7d" := by
  obtain ⟨h1, -, -, -, -, -, -⟩ :=
    C7_json_record_format { loggerW with jsonMode := true, withCaller := true } envW INFO "a<&>b"
      { id := 0, isOpen := true } (by decide) (by decide) (Or.inr (Or.inl rfl)) (by decide)
  exact ⟨h1, by decide⟩

end Yagalog
